import Mathlib

/-!
Serpiente-Escaleras: the browser front end.

A shallow embedding of the four JavaScript modules of the front end
(`inicio.js`, `celda.js`, `players.js`, `juego.js`) and the properties of the
specification checked against them.

Modelling conventions.

* A DOM subtree is a `Forest`: the ordered children of an element, each child
  an `Elem` (tag, class tokens, `data-number`, text, attributes, inline style)
  with its own children.  The encoding is first-child / next-sibling, so every
  function on it is structural.
* JavaScript numbers that the front end receives as cell numbers and player
  positions are integers (`Int`); `undefined` is `none`.
* The built-ins of the browser whose tables are not part of the repository
  (`String.prototype.toLowerCase`, the fragment parser behind `innerHTML`) are
  the fields of a `Navegador`, a parameter of every function that calls them.
* A call that throws is a result `none`, or a flag next to the state it leaves.
* An `async` function is run against an `Entorno` that fixes the outcome of
  each `fetch`; it returns the final page together with the ordered list of
  observable effects (`fetch`, `alert`, `console.error`, renderer calls).
-/

namespace SerpienteEscaleras

/-! ## DOM model -/

/-- One DOM element without its children. -/
structure Elem where
  tag : String
  classList : List String
  dataNumber : Option Int
  textContent : String
  attrs : List (String × String)
  style : List (String × String)
deriving DecidableEq, Repr

/-- An ordered list of DOM subtrees: `node e children next` is the element `e`
with its `children`, followed by its later siblings `next`. -/
inductive Forest where
  | nil : Forest
  | node (e : Elem) (children : Forest) (next : Forest) : Forest
deriving DecidableEq, Repr

/-- The element `document.createElement(tag)` returns. -/
def createElement (tag : String) : Elem :=
  { tag := tag, classList := [], dataNumber := none, textContent := "", attrs := [], style := [] }

/-- Concatenation of sibling lists. -/
def Forest.append : Forest → Forest → Forest
  | .nil, g => g
  | .node e ch nx, g => .node e ch (Forest.append nx g)

/-- The sibling list after `parent.appendChild(child)`, `kids` being the
children of `child`. -/
def Forest.appendChild (f : Forest) (e : Elem) (kids : Forest) : Forest :=
  f.append (.node e kids .nil)

/-- The top-level elements of a sibling list, each with its children. -/
def Forest.toList : Forest → List (Elem × Forest)
  | .nil => []
  | .node e ch nx => (e, ch) :: Forest.toList nx

/-- Every element of the subtrees, in document order. -/
def Forest.all : Forest → List Elem
  | .nil => []
  | .node e ch nx => e :: (Forest.all ch ++ Forest.all nx)

/-- The sibling list of the given elements, each with its children. -/
def Forest.ofList : List (Elem × Forest) → Forest
  | [] => .nil
  | (e, ch) :: rest => .node e ch (Forest.ofList rest)

/-- ASCII whitespace, the separator of class tokens. -/
def isAsciiWhitespace (c : Char) : Bool :=
  c = ' ' || c = '\t' || c = '\n' || c = '\x0c' || c = '\r'

/-- Splits the characters of a `class` attribute into its tokens; `cur` is the
token being read, reversed. -/
def classTokensAux : List Char → List Char → List String
  | [], cur => if cur = [] then [] else [String.mk cur.reverse]
  | c :: cs, cur =>
    if isAsciiWhitespace c then
      (if cur = [] then classTokensAux cs [] else String.mk cur.reverse :: classTokensAux cs [])
    else classTokensAux cs (c :: cur)

/-- The class tokens that `el.className = s` leaves on the element. -/
def classTokens (s : String) : List String := classTokensAux s.data []

/-- Whether `classList.add` accepts a token: it is not empty and has no ASCII
whitespace. -/
def tokenValido (token : String) : Bool :=
  !token.data.isEmpty && !token.data.any isAsciiWhitespace

/-- The tokens after `classList.add(token)` returns: a token already present is
not added again. -/
def classListAddOk (l : List String) (token : String) : List String :=
  if token ∈ l then l else l ++ [token]

/-- The method `classList.add(token)`: `none` when it throws, on an empty
token (`SyntaxError`) or a token with ASCII whitespace (`InvalidCharacterError`). -/
def classListAdd (l : List String) (token : String) : Option (List String) :=
  if tokenValido token then some (classListAddOk l token) else none

/-- Assignment `el.style.prop = value`: a property already set is overwritten in place. -/
def setStyle : List (String × String) → String → String → List (String × String)
  | [], k, v => [(k, v)]
  | (k', v') :: rest, k, v => if k' = k then (k, v) :: rest else (k', v') :: setStyle rest k v

/-- The built-ins of the browser that the front end calls and whose tables are
not part of the repository. -/
structure Navegador where
  toLowerCase : String → String
  parseHTML : String → Forest

/-- A browser for the examples.  Its `toLowerCase` is the built-in on strings of
ASCII characters, and its `parseHTML` is the built-in on text without markup:
one text node, written as an element of tag `#text`. -/
def navegador : Navegador :=
  { toLowerCase := fun s => String.mk (s.data.map Char.toLower)
    parseHTML := fun s => .node { createElement "#text" with textContent := s } .nil .nil }

/-! ## inicio.js: the roster editor -/

/-- A roster entry `{ color, activo }`; `color` is `none` when it is `undefined`. -/
structure Jugador where
  color : Option String
  activo : Bool
deriving DecidableEq, Repr

def MIN_JUGADORES : Nat := 2
def MAX_JUGADORES : Nat := 6
def COLORES_DISPONIBLES : List String :=
  ["ROJO", "VERDE", "NARANJA", "MORADO", "AMARILLO", "AZUL"]

/-- The state of the start page: the `jugadores` array, the children of
`#listaJugadores`, the text of `#contadorJugadores` and the notices raised with
`alert` so far. -/
structure Inicio where
  jugadores : List Jugador
  listaJugadores : Forest
  contadorJugadores : String
  alerts : List String
deriving DecidableEq, Repr

/-- The `forEach` of `renderJugadores`: one card per entry, appended to the
cards built so far.  The flag is `false` when `j.color.toLowerCase()` throws on
an `undefined` color, which ends the loop. -/
def renderCards (nav : Navegador) : List Jugador → Forest → Forest × Bool
  | [], acc => (acc, true)
  | j :: js, acc =>
    match j.color with
    | none => (acc, false)
    | some c =>
      let card : Elem :=
        { createElement "div" with
          classList := classTokens ("jugador-card color-" ++ nav.toLowerCase c)
          textContent := c }
      renderCards nav js (acc.appendChild card .nil)

/-- The function `renderJugadores`: clears the list, rebuilds the cards and
then writes the counter. -/
def renderJugadores (nav : Navegador) (s : Inicio) : Inicio :=
  match renderCards nav s.jugadores .nil with
  | (cards, true) =>
    { s with listaJugadores := cards, contadorJugadores := toString s.jugadores.length }
  | (cards, false) => { s with listaJugadores := cards }

/-- The function `agregarJugador`. -/
def agregarJugador (nav : Navegador) (s : Inicio) : Inicio :=
  if s.jugadores.length < MAX_JUGADORES then
    let siguienteColor := COLORES_DISPONIBLES[s.jugadores.length]?
    renderJugadores nav
      { s with jugadores := s.jugadores ++ [{ color := siguienteColor, activo := true }] }
  else
    { s with alerts := s.alerts ++ ["Máximo permitido: " ++ toString MAX_JUGADORES ++ " jugadores."] }

/-- The function `quitarJugador`. -/
def quitarJugador (nav : Navegador) (s : Inicio) : Inicio :=
  if s.jugadores.length > MIN_JUGADORES then
    renderJugadores nav { s with jugadores := s.jugadores.dropLast }
  else
    { s with alerts := s.alerts ++ ["Debe haber al menos " ++ toString MIN_JUGADORES ++ " jugadores."] }

/-- The start page once the module has run: the seeded roster and the initial render. -/
def inicial (nav : Navegador) : Inicio :=
  renderJugadores nav
    { jugadores := [{ color := some "ROJO", activo := true }, { color := some "VERDE", activo := true }]
      listaJugadores := .nil
      contadorJugadores := ""
      alerts := [] }

/-- A click on one of the two roster buttons. -/
inductive Click where
  | agregar
  | quitar
deriving DecidableEq, Repr

/-- The handler a click runs. -/
def Click.run (nav : Navegador) : Click → Inicio → Inicio
  | .agregar => agregarJugador nav
  | .quitar => quitarJugador nav

/-- The start page after a sequence of clicks, from the seeded roster. -/
def tras (nav : Navegador) (clicks : List Click) : Inicio :=
  clicks.foldl (fun s c => c.run nav s) (inicial nav)

/-- The first `n` palette colors as roster entries. -/
def prefijo (n : Nat) : List Jugador :=
  (COLORES_DISPONIBLES.take n).map (fun c => { color := some c, activo := true })

/-- What a click does to the `jugadores` array alone. -/
def Click.enJugadores : Click → List Jugador → List Jugador
  | .agregar, js =>
    if js.length < 6 then js ++ [{ color := COLORES_DISPONIBLES[js.length]?, activo := true }] else js
  | .quitar, js => if js.length > 2 then js.dropLast else js

/-! ## celda.js: the board renderer -/

/-- A cell of the board layout, `{number, type?, image?}`. -/
structure Cell where
  number : Int
  type : Option String
  image : Option String
deriving DecidableEq, Repr

/-- A row of the board layout, `{cells}`. -/
structure Row where
  cells : List Cell
deriving DecidableEq, Repr

/-- The parsed body of the board request; `rows` is `none` when the body has
no `rows` member (`boardData.rows` is `undefined`). -/
structure BoardData where
  rows : Option (List Row)
deriving DecidableEq, Repr

/-- The members of a player of the game state that the front end reads. -/
structure Player where
  name : String
  color : String
  position : Int
deriving DecidableEq, Repr

/-- The label `numberSpan` of a cell. -/
def numberSpan (cell : Cell) : Elem :=
  { createElement "span" with
    textContent := toString cell.number
    style := [("fontSize", "0.7rem"), ("fontWeight", "bold"), ("position", "absolute"),
      ("top", "5px"), ("right", "5px"), ("backgroundColor", "rgba(0,0,0,0.5)"),
      ("padding", "2px 4px"), ("borderRadius", "4px"), ("color", "white")] }

/-- The background image element of a cell whose `image` is `src`. -/
def backgroundImg (src : String) : Elem :=
  { createElement "img" with
    attrs := [("src", src), ("alt", "")]
    style := [("width", "100%"), ("height", "100%"), ("objectFit", "cover"),
      ("position", "absolute"), ("top", "0"), ("left", "0"), ("zIndex", "-1")] }

/-- The highlight class of a player, the template string of line 63. -/
def playerClass (nav : Navegador) (p : Player) : String := "player-" ++ nav.toLowerCase p.color

/-- The three style assignments of a highlight. -/
def highlightStyle (style : List (String × String)) : List (String × String) :=
  setStyle (setStyle (setStyle style "border" "3px solid white")
    "boxShadow" "0 0 10px rgba(255,255,255,0.8)") "overflow" "visible"

/-- One step of `players.forEach` inside a cell: the highlight of player `p`
is applied to `cellDiv` when `p.position === cell.number`; `none` when
`classList.add` throws. -/
def highlight (nav : Navegador) (cell : Cell) (cellDiv : Elem) (p : Player) : Option Elem :=
  if p.position = cell.number then
    match classListAdd cellDiv.classList (playerClass nav p) with
    | none => none
    | some tokens => some { cellDiv with classList := tokens, style := highlightStyle cellDiv.style }
  else some cellDiv

/-- The loop `players.forEach` inside a cell; `none` when a step throws. -/
def highlightAll (nav : Navegador) (cell : Cell) : List Player → Elem → Option Elem
  | [], cellDiv => some cellDiv
  | p :: ps, cellDiv =>
    match highlight nav cell cellDiv p with
    | none => none
    | some cellDiv' => highlightAll nav cell ps cellDiv'

/-- The element `cellDiv` as created, with its class and `data-number`. -/
def cellDivInicial (cell : Cell) : Elem :=
  { createElement "div" with classList := classTokens "cell", dataNumber := some cell.number }

/-- The children of `cellDiv`: the label, and the background image when
`cell.image` is truthy. -/
def cellKids (cell : Cell) : Forest :=
  let kids := Forest.nil.appendChild (numberSpan cell) .nil
  match cell.image with
  | some src => if src = "" then kids else kids.appendChild (backgroundImg src) .nil
  | none => kids

/-- The body of `row.cells.forEach` up to the append to `cellsDiv`: the element
`cellDiv` built for a cell, and its children; `none` when a `classList.add`
throws. -/
def renderCell (nav : Navegador) (players : List Player) (cell : Cell) : Option (Elem × Forest) :=
  let cellDiv := cellDivInicial cell
  let especial : Option Elem :=
    if cell.type = some "especial" then
      match classListAdd cellDiv.classList "especial" with
      | none => none
      | some tokens => some { cellDiv with classList := tokens }
    else some cellDiv
  match especial with
  | none => none
  | some cellDiv =>
    match highlightAll nav cell players cellDiv with
    | none => none
    | some cellDiv => some (cellDiv, cellKids cell)

/-- The children of `cellsDiv` after `row.cells.forEach`, starting from `acc`;
`none` when the build of a cell throws. -/
def renderCells (nav : Navegador) (players : List Player) : List Cell → Forest → Option Forest
  | [], acc => some acc
  | cell :: rest, acc =>
    match renderCell nav players cell with
    | none => none
    | some built => renderCells nav players rest (acc.appendChild built.1 built.2)

/-- The element `rowDiv` of a row. -/
def rowDiv : Elem := { createElement "div" with classList := classTokens "row" }

/-- The element `cellsDiv` of a row. -/
def cellsDiv : Elem := { createElement "div" with classList := classTokens "row-cells" }

/-- The element appended to the container for a row, with its children: the
`rowDiv`, holding the `cellsDiv`, holding the cells; `none` when the build of
a cell throws, before anything of the row is attached to the container. -/
def rowTree (nav : Navegador) (players : List Player) (row : Row) : Option (Elem × Forest) :=
  match renderCells nav players row.cells .nil with
  | none => none
  | some cells => some (rowDiv, Forest.nil.appendChild cellsDiv cells)

/-- The `for` loop of `renderBoard`.  The counter is `i + 1` for the loop
variable `i`, which runs from `rows.length - 1` down to `0`; `acc` holds the
children of the container.  The flag is `true` when an exception escapes:
`rows[i]` is `undefined`, so `row.cells` throws, or the build of a cell throws. -/
def renderBoardLoop (nav : Navegador) (rows : List Row) (players : List Player) :
    Nat → Forest → Forest × Bool
  | 0, acc => (acc, false)
  | i + 1, acc =>
    match rows[i]? with
    | none => (acc, true)
    | some row =>
      match rowTree nav players row with
      | none => (acc, true)
      | some built => renderBoardLoop nav rows players i (acc.appendChild built.1 built.2)

/-- What a call of `renderBoard` leaves: the children of the container
(`none` when there is no container), whether an exception escaped, and the
messages written with `console.error`. -/
structure RenderResult where
  container : Option Forest
  threw : Bool
  errors : List String
deriving DecidableEq, Repr

/-- The function `renderBoard`; `container` holds the children of the
container element, `none` when the reference is missing. -/
def renderBoard (nav : Navegador) (boardData : BoardData) (players : List Player)
    (container : Option Forest) : RenderResult :=
  match container with
  | none => { container := none, threw := false, errors := ["❌ Contenedor del tablero no encontrado"] }
  | some _ =>
    match boardData.rows with
    | none => { container := some .nil, threw := true, errors := [] }
    | some rows =>
      { container := some (renderBoardLoop nav rows players rows.length .nil).1
        threw := (renderBoardLoop nav rows players rows.length .nil).2
        errors := [] }

/-- One step of `players.forEach` inside a cell when `classList.add` returns. -/
def highlightOk (nav : Navegador) (cell : Cell) (cellDiv : Elem) (p : Player) : Elem :=
  if p.position = cell.number then
    { cellDiv with
      classList := classListAddOk cellDiv.classList (playerClass nav p)
      style := highlightStyle cellDiv.style }
  else cellDiv

/-- The element `cellDiv` of a cell before `players.forEach`. -/
def cellDivEspecial (cell : Cell) : Elem :=
  if cell.type = some "especial" then
    { cellDivInicial cell with
      classList := classListAddOk (cellDivInicial cell).classList "especial" }
  else cellDivInicial cell

/-- The element `cellDiv` of a cell when no `classList.add` throws. -/
def cellDivOk (nav : Navegador) (players : List Player) (cell : Cell) : Elem :=
  players.foldl (highlightOk nav cell) (cellDivEspecial cell)

/-- The element appended to the container for a row when no `classList.add` throws. -/
def rowTreeOk (nav : Navegador) (players : List Player) (row : Row) : Elem × Forest :=
  (rowDiv, Forest.nil.appendChild cellsDiv
    (Forest.ofList (row.cells.map (fun c => (cellDivOk nav players c, cellKids c)))))

/-! ## players.js: the player panel and the avatar overlay -/

/-- The names of the members that the object `colors` inherits from
`Object.prototype`. -/
def miembrosHeredados : List String :=
  ["constructor", "hasOwnProperty", "isPrototypeOf", "propertyIsEnumerable", "toLocaleString",
    "toString", "valueOf", "__proto__", "__defineGetter__", "__defineSetter__",
    "__lookupGetter__", "__lookupSetter__"]

/-- The function `getColorHex`.  The result is `none` when the lookup
`colors[colorName]` finds an inherited member: a function or an object, which
is truthy, so the fallback is not taken and the value returned is not a string. -/
def getColorHex (colorName : String) : Option String :=
  if colorName = "rojo" then some "#FF0000"
  else if colorName = "verde" then some "#00AA00"
  else if colorName = "naranja" then some "#FF8C00"
  else if colorName = "morado" then some "#800080"
  else if colorName = "amarillo" then some "#FFD700"
  else if colorName = "azul" then some "#0000FF"
  else if colorName ∈ miembrosHeredados then none
  else some "#CCCCCC"

/-- The inline style of a panel entry.  The assignment of a value that is not a
color, as the text of an inherited member is, leaves `backgroundColor` unset. -/
def playerInfoStyle (color : Option String) : List (String × String) :=
  (match color with
    | some hex => [("backgroundColor", hex)]
    | none => []) ++
  [("color", "white"), ("fontWeight", "bold"), ("padding", "8px"), ("borderRadius", "5px"),
    ("margin", "5px 0"), ("textAlign", "center")]

/-- The entry of the panel for `player`, at index `idx`, and its children: the
parse of the markup assigned to `innerHTML`. -/
def playerInfo (nav : Navegador) (player : Player) (idx : Nat) (currentPlayerIndex : Int) :
    Elem × Forest :=
  ({ createElement "div" with
      classList :=
        classTokens ("player-info " ++ (if (idx : Int) = currentPlayerIndex then "active" else ""))
      style := playerInfoStyle (getColorHex (nav.toLowerCase player.color)) },
    nav.parseHTML (player.name ++ " (Pos: " ++ toString player.position ++ ")"))

/-- The `forEach` of `renderPlayersList`, from index `idx`. -/
def renderPlayerRows (nav : Navegador) (currentPlayerIndex : Int) :
    List Player → Nat → Forest → Forest
  | [], _, acc => acc
  | p :: ps, idx, acc =>
    renderPlayerRows nav currentPlayerIndex ps (idx + 1)
      (acc.appendChild (playerInfo nav p idx currentPlayerIndex).1
        (playerInfo nav p idx currentPlayerIndex).2)

/-- The function `renderPlayersList`; `container` holds the children of the
panel, `none` when the reference is missing.  The placeholder is the parse of
the markup of line 17: a `p` element with its text. -/
def renderPlayersList (nav : Navegador) (players : List Player) (currentPlayerIndex : Int)
    (container : Option Forest) : Option Forest :=
  match container with
  | none => none
  | some _ =>
    if players.length = 0 then
      some (Forest.nil.appendChild { createElement "p" with textContent := "No hay jugadores" } .nil)
    else some (renderPlayerRows nav currentPlayerIndex players 0 .nil)

/-- Whether an element matches the selector `.player-avatar`. -/
def isAvatar (e : Elem) : Bool := decide ("player-avatar" ∈ e.classList)

/-- The subtree after `querySelectorAll` for `.player-avatar` and `remove()` on
each match: every subtree rooted at a matching element is gone. -/
def removeAvatars : Forest → Forest
  | .nil => .nil
  | .node e ch nx =>
    if isAvatar e then removeAvatars nx else .node e (removeAvatars ch) (removeAvatars nx)

/-- The elements matching `.player-avatar`, in document order. -/
def avatars (f : Forest) : List Elem := f.all.filter isAvatar

/-- Whether an element matches the selector `.cell[data-number="P"]`.  The
attribute holds the decimal text of a number, kept as the number. -/
def isCell (P : Int) (e : Elem) : Bool := decide ("cell" ∈ e.classList) && decide (e.dataNumber = some P)

/-- Whether `querySelector` finds an element matching `.cell[data-number="P"]`. -/
def hasCell (P : Int) : Forest → Bool
  | .nil => false
  | .node e ch nx => isCell P e || hasCell P ch || hasCell P nx

/-- The result of `querySelector` for `img` followed by `appendChild(a)` on the match: the
first `img` element in document order gets `a` as its last child; `none`
when no element matches. -/
def appendToFirstImg (a : Elem) : Forest → Option Forest
  | .nil => none
  | .node e ch nx =>
    if e.tag = "img" then some (.node e (ch.appendChild a .nil) nx)
    else
      match appendToFirstImg a ch with
      | some ch' => some (.node e ch' nx)
      | none =>
        match appendToFirstImg a nx with
        | some nx' => some (.node e ch nx')
        | none => none

/-- The children of a cell after `cellContent.appendChild(a)`, where `cellContent` is the
first `img` element inside the cell, or the cell when it has none. -/
def cellContentAppend (a : Elem) (kids : Forest) : Forest :=
  match appendToFirstImg a kids with
  | some kids' => kids'
  | none => kids.appendChild a .nil

/-- The subtree after `querySelector` for the cell of position `P` and the
append of `a` to its `cellContent`: the first matching cell in document order
is the one changed; `none` when no cell matches. -/
def appendAvatar (P : Int) (a : Elem) : Forest → Option Forest
  | .nil => none
  | .node e ch nx =>
    if isCell P e then some (.node e (cellContentAppend a ch) nx)
    else
      match appendAvatar P a ch with
      | some ch' => some (.node e ch' nx)
      | none =>
        match appendAvatar P a nx with
        | some nx' => some (.node e ch nx')
        | none => none

/-- The avatar image element of a player. -/
def avatar (player : Player) : Elem :=
  { createElement "img" with
    classList := classTokens "player-avatar"
    attrs := [("src", "http://localhost:3000/img/Jugador" ++ player.color ++ ".png"),
      ("alt", player.name),
      ("title", player.name ++ " - Posición " ++ toString player.position)]
    style := [("position", "absolute"), ("width", "30px"), ("height", "30px"),
      ("borderRadius", "50%"), ("border", "2px solid white"), ("bottom", "5px"), ("left", "50%"),
      ("transform", "translateX(-50%)"), ("zIndex", "100"),
      ("boxShadow", "0 2px 5px rgba(0,0,0,0.5)")] }

/-- The body of `players.forEach` in `renderPlayerAvatars`. -/
def placeAvatar (f : Forest) (player : Player) : Forest :=
  if player.position ≤ 0 then f
  else
    match appendAvatar player.position (avatar player) f with
    | none => f
    | some f' => f'

/-- The function `renderPlayerAvatars` on the children of a present board container. -/
def renderAvatarsIn (players : List Player) (f : Forest) : Forest :=
  players.foldl placeAvatar (removeAvatars f)

/-- The function `renderPlayerAvatars`; `boardContainer` holds the children of
the board container, `none` when the reference is missing. -/
def renderPlayerAvatars (players : List Player) (boardContainer : Option Forest) : Option Forest :=
  match boardContainer with
  | none => none
  | some f => some (renderAvatarsIn players f)

/-- The players that get an avatar: position above 0 and a cell with that
number in the container once the old markers are removed, which is the tree
the cell lookup runs on. -/
def eligible (f : Forest) (player : Player) : Bool :=
  decide (0 < player.position) && hasCell player.position (removeAvatars f)

/-! ## juego.js: the game controller -/

/-- The characters `parseInt` skips at the start of its argument (white space
and line terminators of the language). -/
def isStrWhiteSpaceChar (c : Char) : Bool :=
  let n := c.toNat
  n = 0x09 || n = 0x0A || n = 0x0B || n = 0x0C || n = 0x0D || n = 0x20 || n = 0xA0 ||
  n = 0x1680 || (0x2000 ≤ n && n ≤ 0x200A) || n = 0x2028 || n = 0x2029 || n = 0x202F ||
  n = 0x205F || n = 0x3000 || n = 0xFEFF

/-- The value of a character as a digit in the given radix, if it is one. -/
def digitValue (radix : Nat) (c : Char) : Option Nat :=
  let n := c.toNat
  let v : Option Nat :=
    if 48 ≤ n ∧ n ≤ 57 then some (n - 48)
    else if 97 ≤ n ∧ n ≤ 122 then some (n - 97 + 10)
    else if 65 ≤ n ∧ n ≤ 90 then some (n - 65 + 10)
    else none
  match v with
  | some d => if d < radix then some d else none
  | none => none

/-- Reads the longest prefix of digits; `acc` is the value read so far, `none`
while no digit has been read. -/
def readDigits (radix : Nat) : List Char → Option Nat → Option Nat
  | [], acc => acc
  | c :: cs, acc =>
    match digitValue radix c with
    | none => acc
    | some d => readDigits radix cs (some (acc.getD 0 * radix + d))

/-- Removes the prefix `0x` or `0X` and selects radix 16, else radix 10. -/
def stripHexPrefix : List Char → Nat × List Char
  | '0' :: 'x' :: cs => (16, cs)
  | '0' :: 'X' :: cs => (16, cs)
  | cs => (10, cs)

/-- The function `parseInt` with one argument; `none` is `NaN`.  The value is
exact: the rounding of a numeral beyond the range of exact doubles does not
change how it compares with 1 and 6. -/
def parseInt (s : String) : Option Int :=
  let cs := s.data.dropWhile isStrWhiteSpaceChar
  let (sign, cs) : Int × List Char :=
    match cs with
    | '-' :: rest => (-1, rest)
    | '+' :: rest => (1, rest)
    | _ => (1, cs)
  match readDigits (stripHexPrefix cs).1 (stripHexPrefix cs).2 none with
  | none => none
  | some n => some (sign * (n : Int))

/-- A game state snapshot, the body of a successful state request. -/
structure GameState where
  players : List Player
  current_player_index : Int
deriving DecidableEq, Repr

/-- The members of the body of a move response that the controller reads:
`detail` of an error body, `message` and `victory.message` of a result.
`victory` is `none` when it is absent or falsy. -/
structure MoveJson where
  detail : Option String
  message : Option String
  victory : Option (Option String)
deriving DecidableEq, Repr

/-- The outcome of one `fetch`: it rejects with an error message, or it
resolves with a status and a body, whose parse (`res.json()`) yields a value
or rejects with an error message. -/
inductive Respuesta (α : Type) where
  | falla (mensaje : String) : Respuesta α
  | http (status : Nat) (json : Except String α) : Respuesta α

/-- The property `res.ok`: the status is in the range 200 to 299. -/
def statusOk (status : Nat) : Bool := decide (200 ≤ status) && decide (status ≤ 299)

/-- The backend as one handler run sees it: the outcome of each of the three requests. -/
structure Entorno where
  state : Respuesta GameState
  board : Respuesta BoardData
  move : Respuesta MoveJson

/-- The game page: the children of `#board` and of `#playersList` (`none` when
the element is absent), the value of `#dice-input` (`none` when the element is
absent) and the module variable `gameState`. -/
structure Pagina where
  board : Option Forest
  playersList : Option Forest
  diceInput : Option String
  gameState : Option GameState
deriving DecidableEq, Repr

/-- An observable effect of a handler. -/
inductive Efecto where
  | fetch (method : String) (url : String) (body : Option String)
  | alert (msg : String)
  | consoleError (msg : String)
  | llamada (fn : String)
deriving DecidableEq, Repr

def API_BASE : String := "http://localhost:3000/api"

/-- The text `String(x)` of an optional string, as `alert` shows it. -/
def mostrar : Option String → String
  | some s => s
  | none => "undefined"

/-- The `catch` block of `loadGameState`, after the effects `efs`. -/
def loadCatch (pg : Pagina) (efs : List Efecto) : Pagina × List Efecto :=
  (pg, efs ++ [.consoleError "Error al cargar el juego:",
    .alert "⚠️ No se pudo conectar con el servidor."])

/-- The function `loadGameState`. -/
def loadGameState (nav : Navegador) (env : Entorno) (pg : Pagina) : Pagina × List Efecto :=
  match pg.board, pg.playersList, pg.diceInput with
  | some _, some _, some _ =>
    let e1 := [Efecto.fetch "GET" (API_BASE ++ "/game/state") none]
    match env.state with
    | .falla _ => loadCatch pg e1
    | .http status json =>
      if statusOk status = false then loadCatch pg e1
      else
        match json with
        | .error _ => loadCatch pg e1
        | .ok gs =>
          let pg1 : Pagina :=
            { pg with
              gameState := some gs
              playersList := renderPlayersList nav gs.players gs.current_player_index pg.playersList }
          let e2 := e1 ++ [.llamada "renderPlayersList", .fetch "GET" (API_BASE ++ "/board") none]
          match env.board with
          | .falla _ => loadCatch pg1 e2
          | .http _ (.error _) => loadCatch pg1 e2
          | .http _ (.ok boardData) =>
            let r := renderBoard nav boardData gs.players pg1.board
            let pg2 : Pagina := { pg1 with board := r.container }
            let e3 := e2 ++ [.llamada "renderBoard"] ++ r.errors.map Efecto.consoleError
            if r.threw then loadCatch pg2 e3
            else
              ({ pg2 with board := renderPlayerAvatars gs.players pg2.board },
                e3 ++ [.llamada "renderPlayerAvatars"])
  | _, _, _ => (pg, [.consoleError "❌ Elementos del DOM no encontrados"])

/-- The text `JSON.stringify` gives for the object whose only member is `steps`. -/
def stepsBody (steps : Int) : String := "\x7b\"steps\":" ++ toString steps ++ "\x7d"

/-- The request of a move. -/
def moveRequest (steps : Int) : Efecto :=
  .fetch "POST" (API_BASE ++ "/game/move") (some (stepsBody steps))

/-- The `catch` block of `movePlayerManual`, after the effects `efs`. -/
def moveCatch (pg : Pagina) (efs : List Efecto) (mensaje : String) : Pagina × List Efecto :=
  (pg, efs ++ [.consoleError "Error al mover:", .alert ("⚠️ " ++ mensaje)])

/-- The message of the error thrown for a response that is not `ok`:
`err.detail || "Error " + status`, `err` being the parsed body or an empty
object when the body does not parse. -/
def errorMessage (status : Nat) (json : Except String MoveJson) : String :=
  match json with
  | .ok err =>
    match err.detail with
    | some d => if d = "" then "Error " ++ toString status else d
    | none => "Error " ++ toString status
  | .error _ => "Error " ++ toString status

/-- The function `movePlayerManual`.  The module variable `diceInput` is the
element that the load on `DOMContentLoaded` resolved, read here from the page. -/
def movePlayerManual (nav : Navegador) (env : Entorno) (pg : Pagina) : Pagina × List Efecto :=
  match pg.diceInput with
  | none => (pg, [.consoleError "❌ Input de dado no encontrado"])
  | some value =>
    match parseInt value with
    | none => (pg, [.alert "Ingresa un número entre 1 y 6."])
    | some steps =>
      if steps < 1 ∨ steps > 6 then (pg, [.alert "Ingresa un número entre 1 y 6."])
      else
        let e1 := [moveRequest steps]
        match env.move with
        | .falla mensaje => moveCatch pg e1 mensaje
        | .http status json =>
          if statusOk status = false then moveCatch pg e1 (errorMessage status json)
          else
            match json with
            | .error mensaje => moveCatch pg e1 mensaje
            | .ok result =>
              let e2 := e1 ++ [.alert (mostrar result.message)] ++
                (match result.victory with
                 | some m => [Efecto.alert (mostrar m)]
                 | none => [])
              ((loadGameState nav env pg).1, e2 ++ (loadGameState nav env pg).2)

/-- Whether an effect is a request. -/
def Efecto.esFetch : Efecto → Bool
  | .fetch _ _ _ => true
  | _ => false

/-- Whether an effect is a move request, `POST /api/game/move`. -/
def Efecto.esMove : Efecto → Bool
  | .fetch method url _ => decide (method = "POST") && decide (url = API_BASE ++ "/game/move")
  | _ => false

/-- Whether an effect is a step of the load sequence: a request or a renderer call. -/
def Efecto.esPaso : Efecto → Bool
  | .fetch _ _ _ => true
  | .llamada _ => true
  | _ => false

/-- The steps of a complete load, in the order the controller runs them. -/
def pasosDeCarga : List Efecto :=
  [.fetch "GET" (API_BASE ++ "/game/state") none, .llamada "renderPlayersList",
   .fetch "GET" (API_BASE ++ "/board") none, .llamada "renderBoard", .llamada "renderPlayerAvatars"]

/-! ## Example inputs -/

/-- The board of the end-to-end example: one row with the cells 1 and 2. -/
def ejemploBoard : BoardData :=
  { rows := some [{ cells := [⟨1, none, none⟩, ⟨2, none, none⟩] }] }

/-- The players of the end-to-end example: ROJO at position 2. -/
def ejemploPlayers : List Player := [⟨"ROJO", "ROJO", 2⟩]

/-- A game page with its three anchors, empty, before the first load. -/
def paginaVacia : Pagina :=
  { board := some .nil, playersList := some .nil, diceInput := some "", gameState := none }

/-- A backend that answers the state and the board request with the example. -/
def entornoEjemplo : Entorno :=
  { state := .http 200 (.ok ⟨ejemploPlayers, 0⟩)
    board := .http 200 (.ok ejemploBoard)
    move := .http 200 (.ok ⟨none, some "ok", none⟩) }

/-- The game page after a successful load of the example. -/
def paginaCargada : Pagina := (loadGameState navegador entornoEjemplo paginaVacia).1

/-! ## Theorems -/

/-! ### Roster lemmas -/

theorem renderJugadores_jugadores (nav : Navegador) (s : Inicio) :
    (renderJugadores nav s).jugadores = s.jugadores := by
  unfold renderJugadores
  split <;> rfl

theorem renderJugadores_alerts (nav : Navegador) (s : Inicio) :
    (renderJugadores nav s).alerts = s.alerts := by
  unfold renderJugadores
  split <;> rfl

theorem agregarJugador_jugadores (nav : Navegador) (s : Inicio) :
    (agregarJugador nav s).jugadores =
      if s.jugadores.length < 6 then
        s.jugadores ++ [{ color := COLORES_DISPONIBLES[s.jugadores.length]?, activo := true }]
      else s.jugadores := by
  unfold agregarJugador MAX_JUGADORES
  split
  · simp [renderJugadores_jugadores]
  · rfl

theorem quitarJugador_jugadores (nav : Navegador) (s : Inicio) :
    (quitarJugador nav s).jugadores =
      if s.jugadores.length > 2 then s.jugadores.dropLast else s.jugadores := by
  unfold quitarJugador MIN_JUGADORES
  split
  · simp [renderJugadores_jugadores]
  · rfl

theorem tras_snoc (nav : Navegador) (clicks : List Click) (c : Click) :
    tras nav (clicks ++ [c]) = c.run nav (tras nav clicks) := by
  simp [tras, List.foldl_append]

theorem inicial_jugadores (nav : Navegador) :
    (inicial nav).jugadores =
      [{ color := some "ROJO", activo := true }, { color := some "VERDE", activo := true }] := by
  rw [inicial, renderJugadores_jugadores]

/-- The `jugadores` array after a sequence of clicks does not depend on the browser. -/
theorem tras_jugadores (nav : Navegador) (clicks : List Click) :
    (tras nav clicks).jugadores =
      clicks.foldl (fun js c => c.enJugadores js)
        [{ color := some "ROJO", activo := true }, { color := some "VERDE", activo := true }] := by
  induction clicks using List.reverseRecOn with
  | nil => exact inicial_jugadores nav
  | append_singleton cs c ih =>
    rw [tras_snoc, List.foldl_append, List.foldl_cons, List.foldl_nil, ← ih]
    cases c with
    | agregar => exact agregarJugador_jugadores nav _
    | quitar => exact quitarJugador_jugadores nav _

/-- Every reachable roster is a prefix of the palette, of length 2 to 6. -/
theorem tras_prefijo (nav : Navegador) (clicks : List Click) :
    ∃ n, 2 ≤ n ∧ n ≤ 6 ∧ (tras nav clicks).jugadores = prefijo n := by
  induction clicks using List.reverseRecOn with
  | nil => exact ⟨2, by decide, by decide, by rw [tras_jugadores]; decide⟩
  | append_singleton cs c ih =>
    obtain ⟨n, h2, h6, hn⟩ := ih
    rw [tras_snoc]
    have hcases : n = 2 ∨ n = 3 ∨ n = 4 ∨ n = 5 ∨ n = 6 := by omega
    cases c with
    | agregar =>
      simp only [Click.run]
      rcases hcases with h | h | h | h | h <;> subst h
      · exact ⟨3, by decide, by decide, by rw [agregarJugador_jugadores, hn]; decide⟩
      · exact ⟨4, by decide, by decide, by rw [agregarJugador_jugadores, hn]; decide⟩
      · exact ⟨5, by decide, by decide, by rw [agregarJugador_jugadores, hn]; decide⟩
      · exact ⟨6, by decide, by decide, by rw [agregarJugador_jugadores, hn]; decide⟩
      · exact ⟨6, by decide, by decide, by rw [agregarJugador_jugadores, hn]; decide⟩
    | quitar =>
      simp only [Click.run]
      rcases hcases with h | h | h | h | h <;> subst h
      · exact ⟨2, by decide, by decide, by rw [quitarJugador_jugadores, hn]; decide⟩
      · exact ⟨2, by decide, by decide, by rw [quitarJugador_jugadores, hn]; decide⟩
      · exact ⟨3, by decide, by decide, by rw [quitarJugador_jugadores, hn]; decide⟩
      · exact ⟨4, by decide, by decide, by rw [quitarJugador_jugadores, hn]; decide⟩
      · exact ⟨5, by decide, by decide, by rw [quitarJugador_jugadores, hn]; decide⟩

theorem prefijo_length (n : Nat) (h : n ≤ 6) : (prefijo n).length = n := by
  simp [prefijo, COLORES_DISPONIBLES]
  omega

/-! ### Roster theorems -/

/-- C1. Roster size invariant: the seeded roster is ROJO, VERDE, and after every
finite sequence of `agregarJugador` and `quitarJugador` calls, in any order,
the roster has at least 2 and at most 6 entries. -/
theorem roster_size_invariant (nav : Navegador) (clicks : List Click) :
    (tras nav []).jugadores =
        [{ color := some "ROJO", activo := true }, { color := some "VERDE", activo := true }] ∧
      MIN_JUGADORES ≤ (tras nav clicks).jugadores.length ∧
      (tras nav clicks).jugadores.length ≤ MAX_JUGADORES := by
  obtain ⟨n, h2, h6, hn⟩ := tras_prefijo nav clicks
  refine ⟨inicial_jugadores nav, ?_, ?_⟩
  · rw [hn, prefijo_length n h6]; exact h2
  · rw [hn, prefijo_length n h6]; exact h6

/-- C2. Roster operations are all-or-nothing at the bounds.  For every state of
the start page: at length 6 `agregarJugador` changes nothing but the notices,
to which it adds one; at length 2 `quitarJugador` does the same; below 6
`agregarJugador` appends exactly one entry, keeps the existing entries and
raises no notice; above 2 `quitarJugador` removes exactly the last entry and
raises no notice.  From the seeded roster the lengths after 0 to 5 additions
are 2, 3, 4, 5, 6, 6, and from 6 the lengths after 0 to 5 removals are
6, 5, 4, 3, 2, 2. -/
theorem roster_all_or_nothing (nav : Navegador) (s : Inicio) :
    (s.jugadores.length = 6 →
        agregarJugador nav s =
          { s with alerts := s.alerts ++ ["Máximo permitido: 6 jugadores."] }) ∧
      (s.jugadores.length = 2 →
        quitarJugador nav s =
          { s with alerts := s.alerts ++ ["Debe haber al menos 2 jugadores."] }) ∧
      (s.jugadores.length < 6 →
        (∃ j, (agregarJugador nav s).jugadores = s.jugadores ++ [j]) ∧
          (agregarJugador nav s).alerts = s.alerts) ∧
      (s.jugadores.length > 2 →
        (quitarJugador nav s).jugadores = s.jugadores.dropLast ∧
          (quitarJugador nav s).alerts = s.alerts) ∧
      (List.range 6).map (fun k => (tras nav (List.replicate k Click.agregar)).jugadores.length) =
        [2, 3, 4, 5, 6, 6] ∧
      (List.range 6).map (fun k =>
          (tras nav
            (List.replicate 4 Click.agregar ++ List.replicate k Click.quitar)).jugadores.length) =
        [6, 5, 4, 3, 2, 2] := by
  refine ⟨?_, ?_, ?_, ?_, ?_, ?_⟩
  · intro h
    have hs : ("Máximo permitido: " ++ toString MAX_JUGADORES ++ " jugadores.") =
        "Máximo permitido: 6 jugadores." := by decide
    rw [agregarJugador, if_neg (by rw [h]; decide), hs]
  · intro h
    have hs : ("Debe haber al menos " ++ toString MIN_JUGADORES ++ " jugadores.") =
        "Debe haber al menos 2 jugadores." := by decide
    rw [quitarJugador, if_neg (by rw [h]; decide), hs]
  · intro h
    refine ⟨⟨_, by rw [agregarJugador_jugadores, if_pos h]⟩, ?_⟩
    rw [agregarJugador, if_pos (by simpa [MAX_JUGADORES] using h)]
    simp [renderJugadores_alerts]
  · intro h
    refine ⟨by rw [quitarJugador_jugadores, if_pos h], ?_⟩
    rw [quitarJugador, if_pos (by simpa [MIN_JUGADORES] using h)]
    simp [renderJugadores_alerts]
  · simp only [tras_jugadores]
    decide
  · simp only [tras_jugadores]
    decide

/-- Witness of C2 at the seeded start page: an addition gives ROJO, VERDE and
one more entry without a notice. -/
theorem roster_all_or_nothing_witness :
    (∃ j, (agregarJugador navegador (inicial navegador)).jugadores =
        (inicial navegador).jugadores ++ [j]) ∧
      (agregarJugador navegador (inicial navegador)).alerts = (inicial navegador).alerts :=
  (roster_all_or_nothing navegador (inicial navegador)).2.2.1 (by decide)

/-- C3. Adding picks the next unused color.  For every roster reached from the
seeded roster by `agregarJugador` and `quitarJugador` calls: when its length
is below 6, `COLORES_DISPONIBLES[length]` is a defined color of the palette,
no entry of the roster has it, and `agregarJugador` appends the entry with
that color; the colors of the roster are pairwise distinct and every one is a
color of the six-color palette. -/
theorem agregar_next_unused_color (nav : Navegador) (clicks : List Click) :
    ((tras nav clicks).jugadores.length < 6 →
        ∃ c, COLORES_DISPONIBLES[(tras nav clicks).jugadores.length]? = some c ∧
          c ∈ COLORES_DISPONIBLES ∧
          (∀ j ∈ (tras nav clicks).jugadores, j.color ≠ some c) ∧
          (agregarJugador nav (tras nav clicks)).jugadores =
            (tras nav clicks).jugadores ++ [{ color := some c, activo := true }]) ∧
      ((tras nav clicks).jugadores.map (fun j => j.color)).Nodup ∧
      (∀ j ∈ (tras nav clicks).jugadores, ∃ c ∈ COLORES_DISPONIBLES, j.color = some c) ∧
      COLORES_DISPONIBLES.length = 6 := by
  obtain ⟨n, h2, h6, hn⟩ := tras_prefijo nav clicks
  have hcases : n = 2 ∨ n = 3 ∨ n = 4 ∨ n = 5 ∨ n = 6 := by omega
  rw [agregarJugador_jugadores, hn]
  rcases hcases with h | h | h | h | h <;> subst h <;> decide

/-- Witness of C3 at the seeded roster: the third color, NARANJA, is appended. -/
theorem agregar_next_unused_color_witness :
    ∃ c, COLORES_DISPONIBLES[(tras navegador []).jugadores.length]? = some c ∧
      c ∈ COLORES_DISPONIBLES ∧
      (∀ j ∈ (tras navegador []).jugadores, j.color ≠ some c) ∧
      (agregarJugador navegador (tras navegador [])).jugadores =
        (tras navegador []).jugadores ++ [{ color := some c, activo := true }] :=
  (agregar_next_unused_color navegador []).1 (by decide)

/-! ### DOM lemmas -/

theorem Forest.append_nil (f : Forest) : f.append .nil = f := by
  induction f with
  | nil => rfl
  | node e ch nx _ ih => simp [Forest.append, ih]

theorem Forest.append_assoc (f g h : Forest) : (f.append g).append h = f.append (g.append h) := by
  induction f with
  | nil => rfl
  | node e ch nx _ ih => simp [Forest.append, ih]

theorem Forest.toList_append (f g : Forest) : (f.append g).toList = f.toList ++ g.toList := by
  induction f with
  | nil => rfl
  | node e ch nx _ ih => simp [Forest.append, Forest.toList, ih]

theorem Forest.all_append (f g : Forest) : (f.append g).all = f.all ++ g.all := by
  induction f with
  | nil => rfl
  | node e ch nx _ ih => simp [Forest.append, Forest.all, ih]

theorem Forest.toList_ofList (l : List (Elem × Forest)) : (Forest.ofList l).toList = l := by
  induction l with
  | nil => rfl
  | cons x rest ih => obtain ⟨e, ch⟩ := x; simp [Forest.ofList, Forest.toList, ih]

theorem Forest.mem_all_ofList (l : List (Elem × Forest)) (e : Elem) :
    e ∈ (Forest.ofList l).all ↔ ∃ x ∈ l, e = x.1 ∨ e ∈ x.2.all := by
  induction l with
  | nil => simp [Forest.ofList, Forest.all]
  | cons x rest ih =>
    obtain ⟨e', ch⟩ := x
    simp [Forest.ofList, Forest.all, ih, or_assoc]

theorem Forest.ofList_cons (x : Elem × Forest) (rest : List (Elem × Forest)) :
    Forest.ofList (x :: rest) = .node x.1 x.2 (Forest.ofList rest) := by
  obtain ⟨e, ch⟩ := x; rfl

theorem Forest.appendChild_append (f : Forest) (e : Elem) (kids g : Forest) :
    (f.appendChild e kids).append g = f.append (.node e kids g) := by
  rw [Forest.appendChild, Forest.append_assoc]; rfl

/-! ### Board renderer lemmas -/

theorem classListAdd_of_valido (l : List String) (t : String) (h : tokenValido t = true) :
    classListAdd l t = some (classListAddOk l t) := by
  rw [classListAdd, if_pos h]

theorem highlight_eq (nav : Navegador) (cell : Cell) (e : Elem) (p : Player)
    (h : p.position = cell.number → tokenValido (playerClass nav p) = true) :
    highlight nav cell e p = some (highlightOk nav cell e p) := by
  unfold highlight highlightOk
  split
  · rename_i hpos
    rw [classListAdd_of_valido _ _ (h hpos)]
  · rfl

theorem highlightAll_eq (nav : Navegador) (cell : Cell) (players : List Player) (e : Elem)
    (h : ∀ p ∈ players, p.position = cell.number → tokenValido (playerClass nav p) = true) :
    highlightAll nav cell players e = some (players.foldl (highlightOk nav cell) e) := by
  induction players generalizing e with
  | nil => rfl
  | cons p ps ih =>
    rw [highlightAll, highlight_eq nav cell e p (h p (List.mem_cons_self _ _))]
    exact ih _ (fun q hq => h q (List.mem_cons_of_mem _ hq))

theorem renderCell_eq (nav : Navegador) (players : List Player) (cell : Cell)
    (h : ∀ p ∈ players, p.position = cell.number → tokenValido (playerClass nav p) = true) :
    renderCell nav players cell = some (cellDivOk nav players cell, cellKids cell) := by
  have hesp : tokenValido "especial" = true := by decide
  unfold renderCell cellDivOk cellDivEspecial
  simp only [classListAdd_of_valido _ _ hesp]
  by_cases hc : cell.type = some "especial"
  · simp only [if_pos hc, highlightAll_eq nav cell players _ h]
  · simp only [if_neg hc, highlightAll_eq nav cell players _ h]

theorem renderCells_eq (nav : Navegador) (players : List Player) (cells : List Cell)
    (acc : Forest)
    (h : ∀ c ∈ cells, ∀ p ∈ players, p.position = c.number →
      tokenValido (playerClass nav p) = true) :
    renderCells nav players cells acc =
      some (acc.append
        (Forest.ofList (cells.map (fun c => (cellDivOk nav players c, cellKids c))))) := by
  induction cells generalizing acc with
  | nil => simp [renderCells, Forest.ofList, Forest.append_nil]
  | cons c cs ih =>
    rw [renderCells, renderCell_eq nav players c (h c (List.mem_cons_self _ _))]
    simp only
    rw [ih _ (fun c' hc' => h c' (List.mem_cons_of_mem _ hc')), Forest.appendChild_append,
      List.map_cons, Forest.ofList_cons]

theorem rowTree_eq (nav : Navegador) (players : List Player) (row : Row)
    (h : ∀ c ∈ row.cells, ∀ p ∈ players, p.position = c.number →
      tokenValido (playerClass nav p) = true) :
    rowTree nav players row = some (rowTreeOk nav players row) := by
  rw [rowTree, renderCells_eq nav players row.cells .nil h]
  rfl

theorem renderBoardLoop_eq (nav : Navegador) (rows : List Row) (players : List Player)
    (h : ∀ row ∈ rows, ∀ c ∈ row.cells, ∀ p ∈ players, p.position = c.number →
      tokenValido (playerClass nav p) = true)
    (k : Nat) (hk : k ≤ rows.length) (acc : Forest) :
    renderBoardLoop nav rows players k acc =
      (acc.append (Forest.ofList (((rows.take k).reverse).map (rowTreeOk nav players))), false) := by
  induction k generalizing acc with
  | zero => simp [renderBoardLoop, Forest.ofList, Forest.append_nil]
  | succ i ih =>
    have hi : i < rows.length := by omega
    have hget : rows[i]? = some rows[i] := List.getElem?_eq_getElem hi
    have htake : rows.take (i + 1) = rows.take i ++ [rows[i]] := by
      rw [List.take_succ, hget]; rfl
    rw [renderBoardLoop, hget]
    simp only
    rw [rowTree_eq nav players rows[i] (h rows[i] (List.getElem_mem _))]
    simp only
    rw [ih (by omega), htake, Forest.appendChild_append, List.reverse_append,
      List.reverse_singleton, List.singleton_append, List.map_cons, Forest.ofList_cons]

theorem renderBoard_eq (nav : Navegador) (rows : List Row) (players : List Player)
    (prior : Forest)
    (h : ∀ row ∈ rows, ∀ c ∈ row.cells, ∀ p ∈ players, p.position = c.number →
      tokenValido (playerClass nav p) = true) :
    renderBoard nav { rows := some rows } players (some prior) =
      { container := some (Forest.ofList (rows.reverse.map (rowTreeOk nav players)))
        threw := false
        errors := [] } := by
  simp [renderBoard, renderBoardLoop_eq nav rows players h rows.length (le_refl _), Forest.append]

theorem tokenValido_playerClass (nav : Navegador) (p : Player) :
    tokenValido (playerClass nav p) = !(nav.toLowerCase p.color).data.any isAsciiWhitespace := by
  have h : "player-".data.any isAsciiWhitespace = false := by decide
  simp only [tokenValido, playerClass, String.data_append, List.any_append, h, Bool.false_or]
  rfl

theorem foldl_highlightOk_tag (nav : Navegador) (cell : Cell) (players : List Player) (e : Elem) :
    (players.foldl (highlightOk nav cell) e).tag = e.tag ∧
      (players.foldl (highlightOk nav cell) e).dataNumber = e.dataNumber := by
  induction players generalizing e with
  | nil => exact ⟨rfl, rfl⟩
  | cons p ps ih =>
    rw [List.foldl_cons]
    refine ⟨(ih _).1.trans ?_, (ih _).2.trans ?_⟩ <;>
    · unfold highlightOk; split <;> rfl

theorem classListAddOk_mono (l : List String) (t x : String) (h : x ∈ l) :
    x ∈ classListAddOk l t := by
  unfold classListAddOk
  split
  · exact h
  · exact List.mem_append_left _ h

theorem classListAddOk_mem (l : List String) (t : String) : t ∈ classListAddOk l t := by
  unfold classListAddOk
  split
  · assumption
  · simp

theorem foldl_highlightOk_mono (nav : Navegador) (cell : Cell) (players : List Player)
    (e : Elem) (x : String) (h : x ∈ e.classList) :
    x ∈ (players.foldl (highlightOk nav cell) e).classList := by
  induction players generalizing e with
  | nil => exact h
  | cons p ps ih =>
    rw [List.foldl_cons]
    apply ih
    unfold highlightOk
    split
    · exact classListAddOk_mono _ _ _ h
    · exact h

theorem foldl_highlightOk_mem (nav : Navegador) (cell : Cell) (players : List Player)
    (e : Elem) (p : Player) (hp : p ∈ players) (hpos : p.position = cell.number) :
    playerClass nav p ∈ (players.foldl (highlightOk nav cell) e).classList := by
  induction players generalizing e with
  | nil => cases hp
  | cons q qs ih =>
    rw [List.foldl_cons]
    rcases List.mem_cons.mp hp with h | h
    · subst h
      apply foldl_highlightOk_mono
      rw [highlightOk, if_pos hpos]
      exact classListAddOk_mem _ _
    · exact ih _ h

theorem cellDivOk_fst (nav : Navegador) (players : List Player) (cell : Cell) :
    (cellDivOk nav players cell).tag = "div" ∧
      (cellDivOk nav players cell).dataNumber = some cell.number ∧
      "cell" ∈ (cellDivOk nav players cell).classList := by
  have hcell : "cell" ∈ classTokens "cell" := by decide
  refine ⟨?_, ?_, ?_⟩
  · rw [cellDivOk, (foldl_highlightOk_tag _ _ _ _).1]
    unfold cellDivEspecial
    split <;> rfl
  · rw [cellDivOk, (foldl_highlightOk_tag _ _ _ _).2]
    unfold cellDivEspecial
    split <;> rfl
  · rw [cellDivOk]
    apply foldl_highlightOk_mono
    unfold cellDivEspecial
    split
    · exact classListAddOk_mono (classTokens "cell") "especial" "cell" hcell
    · exact hcell

theorem cellKids_classList (cell : Cell) (e : Elem) (he : e ∈ (cellKids cell).all) :
    e.classList = [] := by
  simp only [cellKids] at he
  split at he
  · split at he
    · simp [Forest.appendChild, Forest.append, Forest.all] at he
      subst he; rfl
    · simp [Forest.appendChild, Forest.append, Forest.all] at he
      rcases he with h | h <;> subst h <;> rfl
  · simp [Forest.appendChild, Forest.append, Forest.all] at he
    subst he; rfl

theorem renderBoard_all (nav : Navegador) (rows : List Row) (players : List Player) (e : Elem)
    (he : e ∈ (Forest.ofList (rows.reverse.map (rowTreeOk nav players))).all) :
    e = rowDiv ∨ e = cellsDiv ∨
      ∃ row ∈ rows, ∃ c ∈ row.cells, e = cellDivOk nav players c ∨ e ∈ (cellKids c).all := by
  rw [Forest.mem_all_ofList] at he
  obtain ⟨x, hx, h⟩ := he
  obtain ⟨row, hrow, rfl⟩ := List.mem_map.mp hx
  rcases h with h | h
  · exact Or.inl h
  · simp only [rowTreeOk, Forest.appendChild, Forest.append, Forest.all,
      List.append_nil, List.mem_cons] at h
    rcases h with h | h
    · exact Or.inr (Or.inl h)
    · rw [Forest.mem_all_ofList] at h
      obtain ⟨y, hy, h⟩ := h
      obtain ⟨c, hc, rfl⟩ := List.mem_map.mp hy
      exact Or.inr (Or.inr ⟨row, List.mem_reverse.mp hrow, c, hc, h⟩)

theorem cellDivOk_mem_all (nav : Navegador) (rows : List Row) (players : List Player)
    (row : Row) (c : Cell) (hrow : row ∈ rows) (hc : c ∈ row.cells) :
    cellDivOk nav players c ∈ (Forest.ofList (rows.reverse.map (rowTreeOk nav players))).all := by
  rw [Forest.mem_all_ofList]
  refine ⟨rowTreeOk nav players row,
    List.mem_map.mpr ⟨row, List.mem_reverse.mpr hrow, rfl⟩, Or.inr ?_⟩
  simp only [rowTreeOk, Forest.appendChild, Forest.append, Forest.all,
    List.append_nil, List.mem_cons]
  refine Or.inr ?_
  rw [Forest.mem_all_ofList]
  exact ⟨(cellDivOk nav players c, cellKids c), List.mem_map.mpr ⟨c, hc, rfl⟩, Or.inl rfl⟩

theorem isCell_iff (P : Int) (e : Elem) :
    isCell P e = true ↔ "cell" ∈ e.classList ∧ e.dataNumber = some P := by
  simp [isCell]

/-! ### Board renderer theorems -/

/-- The claim C4 fails for a color with white space: on the board of one row
with the cells 1 and 2, with a player of color `LIGHT BLUE` at position 2,
`classList.add` throws on the token `player-light blue` before the row is
attached, so `renderBoard` throws and the container holds no row. -/
theorem renderBoard_whitespace_color_counterexample :
    renderBoard navegador { rows := some [{ cells := [⟨1, none, none⟩, ⟨2, none, none⟩] }] }
        [⟨"LIGHT BLUE", "LIGHT BLUE", 2⟩] (some .nil) =
      { container := some .nil, threw := true, errors := [] } := by
  decide

/-- C4, amended. For every board with N rows, every player list in which each
player standing on a cell of the board has a color that, in lower case, has no
ASCII white space, and every prior content of a present container,
`renderBoard` returns normally and leaves in the container exactly N row
elements, the k-th of them built from input row N-1-k: a `row` element holding
one `row-cells` element whose children are the cell elements of that row, in
input cell order, each a `div` of class `cell` carrying the number of its cell
as `data-number`. -/
theorem renderBoard_rows_reversed (nav : Navegador) (rows : List Row) (players : List Player)
    (prior : Forest)
    (hcolor : ∀ row ∈ rows, ∀ c ∈ row.cells, ∀ p ∈ players, p.position = c.number →
      (nav.toLowerCase p.color).data.any isAsciiWhitespace = false) :
    ∃ out,
      renderBoard nav { rows := some rows } players (some prior) =
          { container := some out, threw := false, errors := [] } ∧
        out.toList.length = rows.length ∧
        (∀ k, k < rows.length → ∃ row cells,
          rows[rows.length - 1 - k]? = some row ∧
            out.toList[k]? = some (rowDiv, Forest.node cellsDiv cells .nil) ∧
            row.cells.map (renderCell nav players) = cells.toList.map some ∧
            cells.toList.map (fun x => x.1.dataNumber) = row.cells.map (fun c => some c.number) ∧
            ∀ x ∈ cells.toList, x.1.tag = "div" ∧ "cell" ∈ x.1.classList) ∧
        rowDiv.classList = ["row"] ∧ cellsDiv.classList = ["row-cells"] := by
  have hval : ∀ row ∈ rows, ∀ c ∈ row.cells, ∀ p ∈ players, p.position = c.number →
      tokenValido (playerClass nav p) = true := by
    intro row hrow c hc p hp hpos
    rw [tokenValido_playerClass, hcolor row hrow c hc p hp hpos]
    rfl
  refine ⟨_, renderBoard_eq nav rows players prior hval, ?_, ?_, by decide, by decide⟩
  · simp [Forest.toList_ofList]
  · intro k hk
    have hlt : rows.length - 1 - k < rows.length := by omega
    have hrev : rows.reverse[k]? = rows[rows.length - 1 - k]? := List.getElem?_reverse hk
    have hsome : rows[rows.length - 1 - k]? = some rows[rows.length - 1 - k] :=
      List.getElem?_eq_getElem hlt
    have hmem : rows[rows.length - 1 - k] ∈ rows := List.getElem_mem _
    refine ⟨rows[rows.length - 1 - k],
      Forest.ofList (rows[rows.length - 1 - k].cells.map
        (fun c => (cellDivOk nav players c, cellKids c))),
      hsome, ?_, ?_, ?_, ?_⟩
    · rw [Forest.toList_ofList, List.getElem?_map, hrev, hsome]; rfl
    · rw [Forest.toList_ofList, List.map_map]
      apply List.map_congr_left
      intro c hc
      exact renderCell_eq nav players c (fun p hp hpos => hval _ hmem c hc p hp hpos)
    · rw [Forest.toList_ofList, List.map_map]
      apply List.map_congr_left
      intro c _
      exact (cellDivOk_fst nav players c).2.1
    · intro x hx
      rw [Forest.toList_ofList] at hx
      obtain ⟨c, _, rfl⟩ := List.mem_map.mp hx
      exact ⟨(cellDivOk_fst nav players c).1, (cellDivOk_fst nav players c).2.2⟩

/-- Witness of C4: the board of one row with the cells 1 and 2, with ROJO at
position 2, renders a single row containing two cells, numbered 1 and 2 in
that order. -/
theorem renderBoard_rows_reversed_witness :
    ∃ out,
      renderBoard navegador { rows := some [{ cells := [⟨1, none, none⟩, ⟨2, none, none⟩] }] }
          [⟨"ROJO", "ROJO", 2⟩] (some .nil) =
          { container := some out, threw := false, errors := [] } ∧
        out.toList.length = 1 ∧
        ∃ cells, out.toList[0]? = some (rowDiv, Forest.node cellsDiv cells .nil) ∧
          cells.toList.map (fun x => x.1.dataNumber) = [some 1, some 2] := by
  obtain ⟨out, h1, h2, h3, _⟩ :=
    renderBoard_rows_reversed navegador [{ cells := [⟨1, none, none⟩, ⟨2, none, none⟩] }]
      [⟨"ROJO", "ROJO", 2⟩] .nil (by decide)
  obtain ⟨row, cells, hrow, hout, _, hnum, _⟩ := h3 0 (by decide)
  have hr : row = { cells := [⟨1, none, none⟩, ⟨2, none, none⟩] } := by
    simpa using hrow.symm
  subst hr
  exact ⟨out, h1, h2, cells, hout, hnum⟩

/-- C5 at its failing input. On a board whose only cell has the number 0, the
player ROJO at position 0, who has not started, gets that cell highlighted
with `player-rojo`: `renderBoard` has no guard on the position, where
`renderPlayerAvatars` skips the players with `position <= 0`. -/
theorem renderBoard_highlights_position_zero :
    (⟨"ROJO", "ROJO", 0⟩ : Player).position = 0 ∧
      (renderBoard navegador { rows := some [{ cells := [⟨0, none, none⟩] }] }
          [⟨"ROJO", "ROJO", 0⟩] (some .nil)).container.map
          (fun f => f.all.map (fun e => (e.dataNumber, e.classList))) =
        some [(none, ["row"]), (none, ["row-cells"]), (some 0, ["cell", "player-rojo"]),
          (none, [])] ∧
      renderPlayerAvatars [⟨"ROJO", "ROJO", 0⟩]
          (renderBoard navegador { rows := some [{ cells := [⟨0, none, none⟩] }] }
            [⟨"ROJO", "ROJO", 0⟩] (some .nil)).container =
        (renderBoard navegador { rows := some [{ cells := [⟨0, none, none⟩] }] }
          [⟨"ROJO", "ROJO", 0⟩] (some .nil)).container := by
  decide

/-- The part of C5 that the board renderer keeps: when `renderBoard` returns,
for any player of the list whose position equals the number of some cell, the
element of that cell is in the container and carries the class `player-`
followed by the color of the player in lower case, and so does every cell
element of the container with that number. -/
theorem renderBoard_highlight_matching (nav : Navegador) (rows : List Row)
    (players : List Player) (prior : Forest) (p : Player) (hp : p ∈ players)
    (hval : ∀ row ∈ rows, ∀ c ∈ row.cells, ∀ q ∈ players, q.position = c.number →
      tokenValido (playerClass nav q) = true) :
    ∃ out,
      (renderBoard nav { rows := some rows } players (some prior)).container = some out ∧
        (∀ row ∈ rows, ∀ c ∈ row.cells, c.number = p.position →
          ∃ e ∈ out.all, isCell c.number e = true ∧ playerClass nav p ∈ e.classList) ∧
        (∀ e ∈ out.all, isCell p.position e = true → playerClass nav p ∈ e.classList) := by
  refine ⟨_, by rw [renderBoard_eq nav rows players prior hval], ?_, ?_⟩
  · intro row hrow c hc hnum
    refine ⟨cellDivOk nav players c, cellDivOk_mem_all nav rows players row c hrow hc, ?_, ?_⟩
    · rw [isCell_iff]
      exact ⟨(cellDivOk_fst nav players c).2.2, (cellDivOk_fst nav players c).2.1⟩
    · exact foldl_highlightOk_mem nav c players _ p hp hnum.symm
  · intro e he hcell
    rw [isCell_iff] at hcell
    rcases renderBoard_all nav rows players e he with h | h | ⟨row, _, c, _, h | h⟩
    · subst h; exact absurd hcell.1 (by decide)
    · subst h; exact absurd hcell.1 (by decide)
    · subst h
      have hnum : c.number = p.position := by
        have := (cellDivOk_fst nav players c).2.1
        rw [hcell.2] at this
        exact (Option.some.inj this).symm
      exact foldl_highlightOk_mem nav c players _ p hp hnum.symm
    · have := cellKids_classList c e h
      rw [this] at hcell
      exact absurd hcell.1 (by simp)

/-! ### Avatar overlay lemmas -/

theorem isAvatar_avatar (p : Player) : isAvatar (avatar p) = true := by
  have h : "player-avatar" ∈ classTokens "player-avatar" := by decide
  simpa [isAvatar, avatar] using h

theorem isCell_avatar (P : Int) (p : Player) : isCell P (avatar p) = false := by
  have h : "cell" ∉ classTokens "player-avatar" := by decide
  simp [isCell, avatar, h]

theorem removeAvatars_append (f g : Forest) :
    removeAvatars (f.append g) = (removeAvatars f).append (removeAvatars g) := by
  induction f with
  | nil => rfl
  | node e ch nx _ ih =>
    simp only [Forest.append, removeAvatars]
    split
    · exact ih
    · rw [ih]; rfl

theorem removeAvatars_appendChild (f : Forest) (a : Elem) (ha : isAvatar a = true) :
    removeAvatars (f.appendChild a .nil) = removeAvatars f := by
  rw [Forest.appendChild, removeAvatars_append]
  simp [removeAvatars, ha, Forest.append_nil]

theorem removeAvatars_appendToFirstImg (a : Elem) (ha : isAvatar a = true) (f f' : Forest)
    (h : appendToFirstImg a f = some f') : removeAvatars f' = removeAvatars f := by
  induction f generalizing f' with
  | nil => simp [appendToFirstImg] at h
  | node e ch nx ihc ihn =>
    rw [appendToFirstImg] at h
    split at h
    · cases h
      simp only [removeAvatars, removeAvatars_appendChild ch a ha]
    · split at h
      · rename_i ch' hch
        cases h
        simp only [removeAvatars, ihc ch' hch]
      · split at h
        · rename_i nx' hnx
          cases h
          simp only [removeAvatars, ihn nx' hnx]
        · cases h

theorem removeAvatars_cellContentAppend (a : Elem) (ha : isAvatar a = true) (kids : Forest) :
    removeAvatars (cellContentAppend a kids) = removeAvatars kids := by
  unfold cellContentAppend
  split
  · rename_i kids' h
    exact removeAvatars_appendToFirstImg a ha kids kids' h
  · exact removeAvatars_appendChild kids a ha

theorem removeAvatars_appendAvatar (P : Int) (a : Elem) (ha : isAvatar a = true) (f f' : Forest)
    (h : appendAvatar P a f = some f') : removeAvatars f' = removeAvatars f := by
  induction f generalizing f' with
  | nil => simp [appendAvatar] at h
  | node e ch nx ihc ihn =>
    rw [appendAvatar] at h
    split at h
    · cases h
      simp only [removeAvatars, removeAvatars_cellContentAppend a ha ch]
    · split at h
      · rename_i ch' hch
        cases h
        simp only [removeAvatars, ihc ch' hch]
      · split at h
        · rename_i nx' hnx
          cases h
          simp only [removeAvatars, ihn nx' hnx]
        · cases h

theorem removeAvatars_placeAvatar (f : Forest) (p : Player) :
    removeAvatars (placeAvatar f p) = removeAvatars f := by
  unfold placeAvatar
  split
  · rfl
  · split
    · rfl
    · rename_i f' h
      exact removeAvatars_appendAvatar _ _ (isAvatar_avatar p) f f' h

theorem removeAvatars_foldl (players : List Player) (f : Forest) :
    removeAvatars (players.foldl placeAvatar f) = removeAvatars f := by
  induction players generalizing f with
  | nil => rfl
  | cons p ps ih => rw [List.foldl_cons, ih, removeAvatars_placeAvatar]

theorem removeAvatars_idem (f : Forest) : removeAvatars (removeAvatars f) = removeAvatars f := by
  induction f with
  | nil => rfl
  | node e ch nx ihc ihn =>
    simp only [removeAvatars]
    split
    · exact ihn
    · rename_i he
      simp only [removeAvatars, he, ihc, ihn]
      rfl

theorem avatars_removeAvatars (f : Forest) : avatars (removeAvatars f) = [] := by
  induction f with
  | nil => rfl
  | node e ch nx ihc ihn =>
    simp only [removeAvatars]
    split
    · exact ihn
    · rename_i he
      simp only [avatars, Forest.all, List.filter_cons, List.filter_append] at ihc ihn ⊢
      simp [he, ihc, ihn]

theorem all_appendToFirstImg (a : Elem) (f f' : Forest) (h : appendToFirstImg a f = some f') :
    List.Perm f'.all (a :: f.all) := by
  induction f generalizing f' with
  | nil => simp [appendToFirstImg] at h
  | node e ch nx ihc ihn =>
    rw [appendToFirstImg] at h
    split at h
    · cases h
      simp only [Forest.all, Forest.appendChild, Forest.all_append, List.append_nil]
      refine (List.Perm.cons e ?_).trans (List.Perm.swap a e _)
      rw [List.append_assoc]
      exact List.perm_middle
    · split at h
      · rename_i ch' hch
        cases h
        simp only [Forest.all]
        refine (List.Perm.cons e ?_).trans (List.Perm.swap a e _)
        exact List.Perm.append_right _ (ihc ch' hch)
      · split at h
        · rename_i nx' hnx
          cases h
          simp only [Forest.all]
          refine (List.Perm.cons e ?_).trans (List.Perm.swap a e _)
          exact (List.Perm.append_left _ (ihn nx' hnx)).trans List.perm_middle
        · cases h

theorem all_cellContentAppend (a : Elem) (kids : Forest) :
    List.Perm (cellContentAppend a kids).all (a :: kids.all) := by
  unfold cellContentAppend
  split
  · rename_i kids' h
    exact all_appendToFirstImg a kids kids' h
  · simp only [Forest.appendChild, Forest.all_append, Forest.all, List.append_nil]
    exact List.perm_append_comm

theorem all_appendAvatar (P : Int) (a : Elem) (f f' : Forest) (h : appendAvatar P a f = some f') :
    List.Perm f'.all (a :: f.all) := by
  induction f generalizing f' with
  | nil => simp [appendAvatar] at h
  | node e ch nx ihc ihn =>
    rw [appendAvatar] at h
    split at h
    · cases h
      simp only [Forest.all]
      refine (List.Perm.cons e ?_).trans (List.Perm.swap a e _)
      exact List.Perm.append_right _ (all_cellContentAppend a ch)
    · split at h
      · rename_i ch' hch
        cases h
        simp only [Forest.all]
        refine (List.Perm.cons e ?_).trans (List.Perm.swap a e _)
        exact List.Perm.append_right _ (ihc ch' hch)
      · split at h
        · rename_i nx' hnx
          cases h
          simp only [Forest.all]
          refine (List.Perm.cons e ?_).trans (List.Perm.swap a e _)
          exact (List.Perm.append_left _ (ihn nx' hnx)).trans List.perm_middle
        · cases h

theorem hasCell_eq_any (P : Int) (f : Forest) : hasCell P f = f.all.any (isCell P) := by
  induction f with
  | nil => rfl
  | node e ch nx ihc ihn => simp [hasCell, Forest.all, ihc, ihn, Bool.or_assoc]

theorem appendAvatar_isSome (P : Int) (a : Elem) (f : Forest) :
    (appendAvatar P a f).isSome = hasCell P f := by
  induction f with
  | nil => rfl
  | node e ch nx ihc ihn =>
    rw [appendAvatar, hasCell]
    split
    · rename_i he; simp [he]
    · rename_i he
      split
      · rename_i ch' hch
        rw [hch] at ihc
        simp [← ihc]
      · rename_i hch
        rw [hch] at ihc
        split
        · rename_i nx' hnx
          rw [hnx] at ihn
          simp [← ihn]
        · rename_i hnx
          rw [hnx] at ihn
          simp [he, ← ihc, ← ihn]

theorem hasCell_placeAvatar (Q : Int) (f : Forest) (p : Player) :
    hasCell Q (placeAvatar f p) = hasCell Q f := by
  unfold placeAvatar
  split
  · rfl
  · split
    · rfl
    · rename_i f' h
      rw [hasCell_eq_any, hasCell_eq_any, Bool.eq_iff_iff, List.any_eq_true, List.any_eq_true]
      have hperm := all_appendAvatar _ _ f f' h
      constructor
      · rintro ⟨x, hx, hc⟩
        rcases List.mem_cons.mp (hperm.mem_iff.mp hx) with h' | h'
        · subst h'; rw [isCell_avatar] at hc; cases hc
        · exact ⟨x, h', hc⟩
      · rintro ⟨x, hx, hc⟩
        exact ⟨x, hperm.mem_iff.mpr (List.mem_cons_of_mem _ hx), hc⟩

theorem avatars_placeAvatar (f : Forest) (p : Player) :
    List.Perm (avatars (placeAvatar f p))
      ((if decide (0 < p.position) && hasCell p.position f then [avatar p] else []) ++
        avatars f) := by
  unfold placeAvatar
  split
  · rename_i hpos
    have : ¬ 0 < p.position := by omega
    simp [this]
  · rename_i hpos
    have hpos' : 0 < p.position := by omega
    have hsome := appendAvatar_isSome p.position (avatar p) f
    split
    · rename_i hnone
      rw [hnone] at hsome
      simp [← hsome]
    · rename_i f' h
      rw [h] at hsome
      have hperm := (all_appendAvatar _ _ f f' h).filter isAvatar
      simp only [List.filter_cons, isAvatar_avatar, if_true] at hperm
      simpa [avatars, hpos', ← hsome] using hperm

theorem avatars_foldl (players : List Player) (g : Forest) :
    List.Perm (avatars (players.foldl placeAvatar g))
      (avatars g ++
        (players.filter (fun p => decide (0 < p.position) && hasCell p.position g)).map avatar) := by
  induction players generalizing g with
  | nil => simp
  | cons p ps ih =>
    rw [List.foldl_cons]
    refine (ih (placeAvatar g p)).trans ?_
    have hfun : (fun q : Player => decide (0 < q.position) && hasCell q.position (placeAvatar g p)) =
        (fun q : Player => decide (0 < q.position) && hasCell q.position g) := by
      funext q; rw [hasCell_placeAvatar]
    rw [hfun]
    refine ((avatars_placeAvatar g p).append_right _).trans ?_
    by_cases hp : (decide (0 < p.position) && hasCell p.position g) = true
    · have hf : List.filter (fun q : Player => decide (0 < q.position) && hasCell q.position g)
          (p :: ps) =
          p :: List.filter (fun q : Player => decide (0 < q.position) && hasCell q.position g) ps := by
        simp only [List.filter_cons, hp, if_true]
      rw [if_pos hp, hf, List.map_cons]
      simp only [List.singleton_append, List.cons_append]
      exact List.perm_middle.symm
    · have hf : List.filter (fun q : Player => decide (0 < q.position) && hasCell q.position g)
          (p :: ps) =
          List.filter (fun q : Player => decide (0 < q.position) && hasCell q.position g) ps := by
        simp [List.filter_cons, hp]
      rw [if_neg hp, hf]
      simp

theorem removeAvatars_eq_self (f : Forest) (h : ∀ e ∈ f.all, isAvatar e = false) :
    removeAvatars f = f := by
  induction f with
  | nil => rfl
  | node e ch nx ihc ihn =>
    have he : isAvatar e = false := h e (by simp [Forest.all])
    have hc : removeAvatars ch = ch := ihc (fun x hx => h x (by simp [Forest.all, hx]))
    have hn : removeAvatars nx = nx := ihn (fun x hx => h x (by simp [Forest.all, hx]))
    simp [removeAvatars, he, hc, hn]

/-! ### Avatar overlay theorem -/

/-- C6. `renderPlayerAvatars` is idempotent and never accumulates.  For every
content of a present board container, whatever avatar markers, background
images and co-located players it has, and every player list: after one call
the `.player-avatar` elements of the container are exactly the avatars of the
eligible players (position above 0 and a cell with that `data-number`), one
for each, so none for a player at position 0 or without a matching cell; and a
second call with the same player list leaves the same tree.  The cell of a
player is looked up once the old markers are removed: on a container without
markers that is the container itself, and the call does not change which
players are eligible. -/
theorem renderPlayerAvatars_idempotent (players : List Player) (f : Forest) :
    ∃ g,
      renderPlayerAvatars players (some f) = some g ∧
        List.Perm (avatars g) ((players.filter (eligible f)).map avatar) ∧
        (avatars g).length = (players.filter (eligible f)).length ∧
        renderPlayerAvatars players (some g) = some g ∧
        (∀ p, eligible g p = eligible f p) ∧
        ((∀ e ∈ f.all, isAvatar e = false) →
          ∀ p, eligible f p = (decide (0 < p.position) && hasCell p.position f)) := by
  have hperm : List.Perm (avatars (renderAvatarsIn players f))
      ((players.filter (eligible f)).map avatar) := by
    have h := avatars_foldl players (removeAvatars f)
    rw [avatars_removeAvatars, List.nil_append] at h
    exact h
  refine ⟨renderAvatarsIn players f, rfl, hperm, ?_, ?_, ?_, ?_⟩
  · rw [hperm.length_eq, List.length_map]
  · simp only [renderPlayerAvatars, renderAvatarsIn]
    rw [removeAvatars_foldl, removeAvatars_idem]
  · intro p
    simp only [eligible, renderAvatarsIn]
    rw [removeAvatars_foldl, removeAvatars_idem]
  · intro h p
    simp only [eligible]
    rw [removeAvatars_eq_self f h]

/-- Witness of C6: on the example board, with a background image in cell 2,
ROJO and VERDE both at position 2, AZUL at position 0 and MORADO at position 9
(no such cell), one call leaves exactly two avatars and a second call changes
nothing. -/
theorem renderPlayerAvatars_idempotent_witness :
    ∃ g,
      renderPlayerAvatars
          [⟨"ROJO", "ROJO", 2⟩, ⟨"VERDE", "VERDE", 2⟩, ⟨"AZUL", "AZUL", 0⟩, ⟨"MORADO", "MORADO", 9⟩]
          (renderBoard navegador
            { rows := some [{ cells := [⟨1, none, none⟩, ⟨2, none, some "/img/c.png"⟩] }] }
            [] (some .nil)).container = some g ∧
        (avatars g).length = 2 ∧
        renderPlayerAvatars
          [⟨"ROJO", "ROJO", 2⟩, ⟨"VERDE", "VERDE", 2⟩, ⟨"AZUL", "AZUL", 0⟩, ⟨"MORADO", "MORADO", 9⟩]
          (some g) = some g := by
  obtain ⟨g, h1, _, h3, h4, _⟩ :=
    renderPlayerAvatars_idempotent
      [⟨"ROJO", "ROJO", 2⟩, ⟨"VERDE", "VERDE", 2⟩, ⟨"AZUL", "AZUL", 0⟩, ⟨"MORADO", "MORADO", 9⟩]
      (Forest.ofList ([({ cells := [⟨1, none, none⟩, ⟨2, none, some "/img/c.png"⟩] } : Row)].reverse.map
        (rowTreeOk navegador [])))
  refine ⟨g, ?_, ?_, h4⟩
  · rw [renderBoard_eq navegador _ [] .nil (by simp)]; exact h1
  · rw [h3]; decide

/-! ### Game controller lemmas -/

theorem filter_esMove_consoleError (l : List String) :
    (l.map Efecto.consoleError).filter Efecto.esMove = [] := by
  induction l with
  | nil => rfl
  | cons x xs ih => simp [Efecto.esMove]

theorem filter_esPaso_consoleError (l : List String) :
    (l.map Efecto.consoleError).filter Efecto.esPaso = [] := by
  induction l with
  | nil => rfl
  | cons x xs ih => simp [Efecto.esPaso]

theorem loadGameState_efectos (nav : Navegador) (env : Entorno) (pg : Pagina) (ef : Efecto)
    (hef : ef ∈ (loadGameState nav env pg).2) :
    ef ∈ pasosDeCarga ∨ (∃ m, ef = .consoleError m) ∨ ∃ m, ef = .alert m := by
  unfold loadGameState loadCatch at hef
  simp only [pasosDeCarga]
  split at hef
  · split at hef
    · simp at hef; aesop
    · split at hef
      · simp at hef; aesop
      · split at hef
        · simp at hef; aesop
        · split at hef
          · simp at hef; aesop
          · simp at hef; aesop
          · simp only at hef
            split at hef
            · simp at hef; aesop
            · simp at hef; aesop
  · simp at hef; aesop

theorem loadGameState_no_move (nav : Navegador) (env : Entorno) (pg : Pagina) :
    (loadGameState nav env pg).2.filter Efecto.esMove = [] := by
  rw [List.filter_eq_nil_iff]
  intro ef hef
  rcases loadGameState_efectos nav env pg ef hef with h | ⟨m, rfl⟩ | ⟨m, rfl⟩
  · have hall : ∀ x ∈ pasosDeCarga, ¬ Efecto.esMove x = true := by decide
    exact hall ef h
  · simp [Efecto.esMove]
  · simp [Efecto.esMove]

theorem esMove_moveRequest (n : Int) : Efecto.esMove (moveRequest n) = true := by
  simp [moveRequest, Efecto.esMove]

theorem esMove_alert (m : String) : Efecto.esMove (.alert m) = false := rfl

theorem esMove_consoleError (m : String) : Efecto.esMove (.consoleError m) = false := rfl

theorem movePlayerManual_moves (nav : Navegador) (env : Entorno) (pg : Pagina) :
    (movePlayerManual nav env pg).2.filter Efecto.esMove =
      match pg.diceInput with
      | none => []
      | some value =>
        match parseInt value with
        | none => []
        | some steps => if steps < 1 ∨ steps > 6 then [] else [moveRequest steps] := by
  unfold movePlayerManual moveCatch
  split
  · simp [esMove_consoleError]
  · split
    · simp [esMove_alert]
    · rename_i steps _
      split
      · simp [esMove_alert]
      · split
        · simp [List.filter_cons, esMove_moveRequest, esMove_alert, esMove_consoleError]
        · split
          · simp [List.filter_cons, esMove_moveRequest, esMove_alert, esMove_consoleError]
          · split
            · simp [List.filter_cons, esMove_moveRequest, esMove_alert, esMove_consoleError]
            · simp only [List.filter_append, loadGameState_no_move, List.append_nil]
              rename_i result _
              cases result.victory <;>
                simp [List.filter_cons, esMove_moveRequest, esMove_alert]

theorem renderBoard_errors (nav : Navegador) (boardData : BoardData) (players : List Player)
    (b : Forest) : (renderBoard nav boardData players (some b)).errors = [] := by
  unfold renderBoard
  simp only
  split <;> rfl

theorem loadGameState_pasos (nav : Navegador) (env : Entorno) (pg : Pagina) :
    ∃ k, (loadGameState nav env pg).2.filter Efecto.esPaso = pasosDeCarga.take k := by
  unfold loadGameState loadCatch
  split
  · split
    · exact ⟨1, by simp [pasosDeCarga, Efecto.esPaso]⟩
    · split
      · exact ⟨1, by simp [pasosDeCarga, Efecto.esPaso]⟩
      · split
        · exact ⟨1, by simp [pasosDeCarga, Efecto.esPaso]⟩
        · split
          · exact ⟨3, by simp [pasosDeCarga, Efecto.esPaso]⟩
          · exact ⟨3, by simp [pasosDeCarga, Efecto.esPaso]⟩
          · simp only
            split
            · exact ⟨4, by
                simp [pasosDeCarga, Efecto.esPaso, List.filter_append, filter_esPaso_consoleError]⟩
            · exact ⟨5, by
                simp [pasosDeCarga, Efecto.esPaso, List.filter_append, filter_esPaso_consoleError]⟩
  · exact ⟨0, by simp [Efecto.esPaso]⟩

/-- A failed state request (rejected, status not ok, or body not parsable)
leaves the page as it was and raises the notice. -/
theorem loadGameState_state_fails (nav : Navegador) (env : Entorno) (pg : Pagina) (b l : Forest) (d : String)
    (hb : pg.board = some b) (hl : pg.playersList = some l) (hd : pg.diceInput = some d)
    (hfail : (∃ m, env.state = .falla m) ∨
      (∃ status json, env.state = .http status json ∧ statusOk status = false) ∨
      (∃ status m, env.state = .http status (.error m))) :
    loadGameState nav env pg =
      (pg, [.fetch "GET" (API_BASE ++ "/game/state") none,
        .consoleError "Error al cargar el juego:",
        .alert "⚠️ No se pudo conectar con el servidor."]) := by
  unfold loadGameState loadCatch
  rw [hb, hl, hd]
  rcases hfail with ⟨m, h⟩ | ⟨status, json, h, hs⟩ | ⟨status, m, h⟩
  · simp [h]
  · simp [h, hs]
  · simp [h]

/-- A board request that rejects, or whose body does not parse, leaves the
board container as it was and raises the notice; the player panel has been
re-rendered by then. -/
theorem loadGameState_board_rejects (nav : Navegador) (env : Entorno) (pg : Pagina) (b l : Forest) (d : String)
    (status : Nat) (gs : GameState)
    (hb : pg.board = some b) (hl : pg.playersList = some l) (hd : pg.diceInput = some d)
    (hstate : env.state = .http status (.ok gs)) (hok : statusOk status = true)
    (hfail : (∃ m, env.board = .falla m) ∨ (∃ s m, env.board = .http s (.error m))) :
    loadGameState nav env pg =
      ({ pg with
          gameState := some gs
          playersList := renderPlayersList nav gs.players gs.current_player_index pg.playersList },
        [.fetch "GET" (API_BASE ++ "/game/state") none, .llamada "renderPlayersList",
          .fetch "GET" (API_BASE ++ "/board") none,
          .consoleError "Error al cargar el juego:",
          .alert "⚠️ No se pudo conectar con el servidor."]) := by
  unfold loadGameState loadCatch
  rw [hb, hl, hd]
  rcases hfail with ⟨m, h⟩ | ⟨s, m, h⟩
  · simp [hstate, hok, h, hl]
  · simp [hstate, hok, h, hl]

/-! ### Game controller theorems -/

/-- The claim C7 fails: the inputs `2.5` and `3abc` are not integers, and
`movePlayerManual` does not reject them: it sends a move request, with the
steps 2 and 3. -/
theorem movePlayerManual_non_integer_counterexample :
    ((movePlayerManual navegador entornoEjemplo { paginaVacia with diceInput := some "2.5" }).2.filter
        Efecto.esFetch).head? = some (moveRequest 2) ∧
      ((movePlayerManual navegador entornoEjemplo { paginaVacia with diceInput := some "3abc" }).2.filter
        Efecto.esFetch).head? = some (moveRequest 3) := by
  decide

/-- C7, amended. Move input validation: for every string typed into the dice
input, `movePlayerManual` rejects it locally (the notice is its only effect,
so no network call, and the page is unchanged) unless `parseInt` of the string
is a number from 1 to 6, in which case the first effect is the move request
with that number; `parseInt` reads 0, 7 and -1 from the inputs `0`, `7` and
`-1`, and nothing from `abc`. -/
theorem movePlayerManual_rejects (nav : Navegador) (env : Entorno) (pg : Pagina) (value : String)
    (hv : pg.diceInput = some value) :
    ((∀ n, parseInt value = some n → n < 1 ∨ 6 < n) →
        movePlayerManual nav env pg = (pg, [.alert "Ingresa un número entre 1 y 6."])) ∧
      (∀ n, parseInt value = some n → 1 ≤ n → n ≤ 6 →
        (movePlayerManual nav env pg).2.head? = some (moveRequest n)) ∧
      parseInt "0" = some 0 ∧ parseInt "7" = some 7 ∧ parseInt "abc" = none ∧
      parseInt "-1" = some (-1) := by
  refine ⟨?_, ?_, by decide, by decide, by decide, by decide⟩
  · intro h
    unfold movePlayerManual
    rw [hv]
    simp only
    split
    · rfl
    · rename_i steps hsteps
      have := h steps hsteps
      rw [if_pos (by omega)]
  · intro n hn h1 h6
    unfold movePlayerManual moveCatch
    rw [hv]
    simp only [hn]
    rw [if_neg (by omega)]
    split
    · rfl
    · split
      · rfl
      · split <;> rfl

/-- Witness of C7: the inputs `0`, `7`, `abc` and `-1` are rejected with the
notice as the only effect. -/
theorem movePlayerManual_rejects_witness :
    movePlayerManual navegador entornoEjemplo { paginaVacia with diceInput := some "0" } =
        ({ paginaVacia with diceInput := some "0" }, [.alert "Ingresa un número entre 1 y 6."]) ∧
      movePlayerManual navegador entornoEjemplo { paginaVacia with diceInput := some "7" } =
        ({ paginaVacia with diceInput := some "7" }, [.alert "Ingresa un número entre 1 y 6."]) ∧
      movePlayerManual navegador entornoEjemplo { paginaVacia with diceInput := some "abc" } =
        ({ paginaVacia with diceInput := some "abc" }, [.alert "Ingresa un número entre 1 y 6."]) ∧
      movePlayerManual navegador entornoEjemplo { paginaVacia with diceInput := some "-1" } =
        ({ paginaVacia with diceInput := some "-1" }, [.alert "Ingresa un número entre 1 y 6."]) :=
  ⟨(movePlayerManual_rejects navegador entornoEjemplo { paginaVacia with diceInput := some "0" } "0" rfl).1
      (by decide),
    (movePlayerManual_rejects navegador entornoEjemplo { paginaVacia with diceInput := some "7" } "7" rfl).1
      (by decide),
    (movePlayerManual_rejects navegador entornoEjemplo { paginaVacia with diceInput := some "abc" } "abc"
      rfl).1 (by decide),
    (movePlayerManual_rejects navegador entornoEjemplo { paginaVacia with diceInput := some "-1" } "-1"
      rfl).1 (by decide)⟩

/-- C8. Every move request that `movePlayerManual` sends is a
`POST /api/game/move` whose body is the JSON text of `steps: n` for an integer
n with 1 ≤ n ≤ 6; and for each of the inputs `1` to `6` exactly one such
request is issued, with n equal to the input. -/
theorem movePlayerManual_requests (nav : Navegador) (env : Entorno) (pg : Pagina) :
    (∀ ef ∈ (movePlayerManual nav env pg).2, Efecto.esMove ef = true →
        ∃ n : Int, 1 ≤ n ∧ n ≤ 6 ∧
          ef = .fetch "POST" "http://localhost:3000/api/game/move" (some (stepsBody n))) ∧
      (∀ x ∈ [("1", (1 : Int)), ("2", 2), ("3", 3), ("4", 4), ("5", 5), ("6", 6)],
        pg.diceInput = some x.1 →
          (movePlayerManual nav env pg).2.filter Efecto.esMove =
            [.fetch "POST" "http://localhost:3000/api/game/move" (some (stepsBody x.2))]) ∧
      [stepsBody 1, stepsBody 2, stepsBody 3, stepsBody 4, stepsBody 5, stepsBody 6] =
        ["\x7b\"steps\":1\x7d", "\x7b\"steps\":2\x7d", "\x7b\"steps\":3\x7d",
          "\x7b\"steps\":4\x7d", "\x7b\"steps\":5\x7d", "\x7b\"steps\":6\x7d"] := by
  have hurl : API_BASE ++ "/game/move" = "http://localhost:3000/api/game/move" := by decide
  refine ⟨?_, ?_, by decide⟩
  · intro ef hef hmove
    have hmem : ef ∈ (movePlayerManual nav env pg).2.filter Efecto.esMove :=
      List.mem_filter.mpr ⟨hef, hmove⟩
    rw [movePlayerManual_moves] at hmem
    split at hmem
    · cases hmem
    · split at hmem
      · cases hmem
      · rename_i steps _
        split at hmem
        · cases hmem
        · rw [List.mem_singleton] at hmem
          exact ⟨steps, by omega, by omega, by rw [hmem, moveRequest, hurl]⟩
  · intro x hx hv
    rw [movePlayerManual_moves, hv]
    simp only [List.mem_cons, List.mem_singleton, List.not_mem_nil, or_false] at hx
    rcases hx with h | h | h | h | h | h <;> subst h <;> decide

/-- Witness of C8: with `4` in the dice input, the one move request carries the steps 4. -/
theorem movePlayerManual_requests_witness :
    (movePlayerManual navegador entornoEjemplo { paginaVacia with diceInput := some "4" }).2.filter
        Efecto.esMove =
      [.fetch "POST" "http://localhost:3000/api/game/move" (some (stepsBody 4))] :=
  (movePlayerManual_requests navegador entornoEjemplo { paginaVacia with diceInput := some "4" }).2.1
    ("4", 4) (by decide) rfl

/-- C9 at its failing input. The page shows the example board; the state
request succeeds and the board request is answered with status 500 and a JSON
body without `rows`.  The status is not checked, `renderBoard` is called on
the body, empties the container and throws: the notice is raised and the board
container, which was not empty, is left empty. -/
theorem loadGameState_board_error_blanks_board :
    statusOk 500 = false ∧ paginaCargada.board ≠ some .nil ∧
      loadGameState navegador
          { state := .http 200 (.ok ⟨ejemploPlayers, 0⟩)
            board := .http 500 (.ok { rows := none })
            move := .falla "" } paginaCargada =
        ({ paginaCargada with board := some .nil },
          [.fetch "GET" "http://localhost:3000/api/game/state" none,
            .llamada "renderPlayersList",
            .fetch "GET" "http://localhost:3000/api/board" none,
            .llamada "renderBoard",
            .consoleError "Error al cargar el juego:",
            .alert "⚠️ No se pudo conectar con el servidor."]) := by
  decide

/-- The claim C10 fails: in a complete load the player panel is rendered before
the board layout is requested, and when the board request fails the panel has
been re-rendered in that cycle. -/
theorem loadGameState_order_counterexample :
    (loadGameState navegador entornoEjemplo paginaVacia).2 =
        [.fetch "GET" "http://localhost:3000/api/game/state" none,
          .llamada "renderPlayersList",
          .fetch "GET" "http://localhost:3000/api/board" none,
          .llamada "renderBoard",
          .llamada "renderPlayerAvatars"] ∧
      (loadGameState navegador { entornoEjemplo with board := .falla "Failed to fetch" } paginaVacia).2 =
        [.fetch "GET" "http://localhost:3000/api/game/state" none,
          .llamada "renderPlayersList",
          .fetch "GET" "http://localhost:3000/api/board" none,
          .consoleError "Error al cargar el juego:",
          .alert "⚠️ No se pudo conectar con el servidor."] ∧
      (loadGameState navegador { entornoEjemplo with board := .falla "Failed to fetch" }
          paginaVacia).1.playersList ≠ paginaVacia.playersList := by
  decide

/-- C10, amended. Load sequence order: in every run of `loadGameState` with all
DOM anchors present, the requests and renderer calls form an initial part of
the sequence fetch game state, render player panel, fetch board layout, render
board, render avatars; the whole sequence when both requests succeed and the
board renderer returns; and when the board request is rejected the sequence
ends after the first three steps, the player panel re-rendered from the
fetched state. -/
theorem loadGameState_order (nav : Navegador) (env : Entorno) (pg : Pagina) (b l : Forest) (d : String)
    (hb : pg.board = some b) (hl : pg.playersList = some l) (hd : pg.diceInput = some d) :
    List.IsPrefix ((loadGameState nav env pg).2.filter Efecto.esPaso) pasosDeCarga ∧
      (∀ status gs s2 boardData, env.state = .http status (.ok gs) → statusOk status = true →
        env.board = .http s2 (.ok boardData) →
        (renderBoard nav boardData gs.players pg.board).threw = false →
          (loadGameState nav env pg).2 = pasosDeCarga) ∧
      (∀ status gs m, env.state = .http status (.ok gs) → statusOk status = true →
        env.board = .falla m →
          (loadGameState nav env pg).2.filter Efecto.esPaso = pasosDeCarga.take 3 ∧
            (loadGameState nav env pg).1.playersList =
              renderPlayersList nav gs.players gs.current_player_index pg.playersList) ∧
      pasosDeCarga =
        [.fetch "GET" "http://localhost:3000/api/game/state" none,
          .llamada "renderPlayersList",
          .fetch "GET" "http://localhost:3000/api/board" none,
          .llamada "renderBoard",
          .llamada "renderPlayerAvatars"] := by
  refine ⟨?_, ?_, ?_, by decide⟩
  · obtain ⟨k, hk⟩ := loadGameState_pasos nav env pg
    rw [hk]
    exact List.take_prefix k pasosDeCarga
  · intro status gs s2 boardData hstate hok hboard hthrew
    rw [hb] at hthrew
    unfold loadGameState
    rw [hb, hl, hd]
    simp only [hstate, hok, hboard]
    simp [pasosDeCarga, hthrew, renderBoard_errors]
  · intro status gs m hstate hok hboard
    rw [loadGameState_board_rejects nav env pg b l d status gs hb hl hd hstate hok (Or.inl ⟨m, hboard⟩)]
    exact ⟨by simp [pasosDeCarga, Efecto.esPaso], rfl⟩

/-- Witness of C10: the load of the example on the empty page runs the five
steps in the order of the controller. -/
theorem loadGameState_order_witness :
    List.IsPrefix ((loadGameState navegador entornoEjemplo paginaVacia).2.filter Efecto.esPaso)
        pasosDeCarga ∧
      (loadGameState navegador entornoEjemplo paginaVacia).2 = pasosDeCarga :=
  ⟨(loadGameState_order navegador entornoEjemplo paginaVacia .nil .nil "" rfl rfl rfl).1,
    (loadGameState_order navegador entornoEjemplo paginaVacia .nil .nil "" rfl rfl rfl).2.1 200
      ⟨ejemploPlayers, 0⟩ 200 ejemploBoard rfl rfl rfl (by decide)⟩


end SerpienteEscaleras
